import Mathlib

/-!
# Verification of the QR-code batch generator (`main.go`)

Shallow embedding of the logic-bearing core of the repository:

* `goIsSpace` / `trimSpace` — Go `strings.TrimSpace` (`unicode.IsSpace` set);
* `pinCodeInfo` — `generator.pinCodeInfo`: classify a token list into a
  (name, pinCode) pair, or a "value format is error" error;
* `fileSize` — `generator.fileSize`: `os.Stat` is modelled by an oracle
  `st : String → Option Int`; on a stat error the Go code calls
  `log.Fatal(err)`, which exits the process, so the model returns `fatalExit`;
* `work` — `generator.work`: one worker step on one line.  The filesystem
  effects are recorded in a `WorkTrace` (encoder invocations, paths appended
  to the error log, whether the process was fatally aborted).  The QR encoder
  `qrcode.WriteFile` is an external black box, modelled by an oracle
  `enc : String → String → Bool` (payload → path → success);
* `fileContentArr` — the line split `strings.Split(pinCodeList, "\n")` of
  `processQRCode`; one job is enqueued per element;
* `runJobs` — the worker pool consuming the job channel.  Workers race for
  jobs, so the order in which jobs are executed is nondeterministic; the model
  takes the execution order as an explicit list, and theorems quantify over
  all permutations of the job list.  Appends to the error log are treated as
  atomic here (the interleaving-level race of the real code is modelled
  separately by `raceRun` below);
* `processQRCode` / `generatorQRCode` — the facade: input validation, field
  assignment, `os.MkdirAll`, dispatch, and the returned summary string.
-/

namespace GenQRCode

/-- The Go `unicode.IsSpace` predicate (White_Space property), used by
`strings.TrimSpace`. -/
def goIsSpace (c : Char) : Bool :=
  c = ' ' || c = '\t' || c = '\n' || c.val = 11 || c.val = 12 || c = '\r' ||
  c.val = 0x85 || c.val = 0xA0 || c.val = 0x1680 ||
  (0x2000 ≤ c.val && c.val ≤ 0x200A) ||
  c.val = 0x2028 || c.val = 0x2029 || c.val = 0x202F || c.val = 0x205F ||
  c.val = 0x3000

/-- Go `strings.TrimSpace`: drop leading and trailing white space. -/
def trimSpace (s : String) : String :=
  ⟨((s.data.dropWhile goIsSpace).reverse.dropWhile goIsSpace).reverse⟩

/-- Go `strings.Split` with a single-character separator, on the character
list: splitting the empty list gives `[[]]`, and every occurrence of `sep`
separates two (possibly empty) segments. -/
def splitOnChar (sep : Char) : List Char → List (List Char)
  | [] => [[]]
  | c :: cs =>
    if c = sep then [] :: splitOnChar sep cs
    else
      match splitOnChar sep cs with
      | [] => [[c]]
      | t :: ts => (c :: t) :: ts

/-- Go `strings.Split s sep` for a single-character separator `sep`
(the source only splits on `"\n"` and `" "`). -/
def goSplit (sep : Char) (s : String) : List String :=
  (splitOnChar sep s.data).map String.mk

/-- The mutable fields of the Go `generator` struct (the embedded
`sync.Mutex` carries no data and is omitted). -/
structure Generator where
  pinCodeList : String
  folder : String
  fileExt : String
deriving DecidableEq, Repr

/-- `generator.pinCodeInfo`: a 1-token list gives name = pinCode = token,
a 2-token list gives (name, pinCode), anything else is the
"value format is error" error. -/
def pinCodeInfo : List String → Except String (String × String)
  | [v0] => .ok (v0, v0)
  | [v0, v1] => .ok (v0, v1)
  | _ => .error "value format is error"

/-- Result of `generator.fileSize`.  On an `os.Stat` error the Go code calls
`log.Fatal(err)`, which terminates the whole process; the `return 0, err`
after it is dead code. -/
inductive SizeResult where
  | fatalExit
  | size (n : Int)
deriving DecidableEq, Repr

/-- `generator.fileSize`, with `os.Stat` modelled by the oracle `st`
(`none` = stat error, `some n` = success with size `n`). -/
def fileSize (st : String → Option Int) (pingCode : String) : SizeResult :=
  match st pingCode with
  | none => .fatalExit
  | some n => .size n

/-- Observable effects of one worker step (also reused for a whole run):
the encoder invocations `(payload, destination path)`, the paths appended to
the shared `errLog.errGenQRCode`, and whether the process was fatally
aborted by `log.Fatal`. -/
structure WorkTrace where
  encodeCalls : List (String × String)
  errLog : List String
  fatalAbort : Bool
deriving DecidableEq, Repr

/-- `generator.work`: skip empty lines; trim and split the line on single
spaces; classify via `pinCodeInfo` (a malformed line just returns); build the
destination path `folder ++ "/" ++ name ++ fileExt`; call the encoder; on
encoder error append the path to the error log; on success stat the file via
`fileSize` (no size check is performed on the result). -/
def work (folder fileExt : String) (enc : String → String → Bool)
    (st : String → Option Int) (fileContent : String) : WorkTrace :=
  if fileContent.length = 0 then ⟨[], [], false⟩
  else
    match pinCodeInfo (goSplit ' ' (trimSpace fileContent)) with
    | .error _ => ⟨[], [], false⟩
    | .ok (valueName, valuePinCode) =>
      let pingCode := folder ++ "/" ++ valueName ++ fileExt
      if enc valuePinCode pingCode then
        match fileSize st pingCode with
        | .fatalExit => ⟨[(valuePinCode, pingCode)], [], true⟩
        | .size _ => ⟨[(valuePinCode, pingCode)], [], false⟩
      else
        ⟨[(valuePinCode, pingCode)], [pingCode], false⟩

/-- `strings.Split(g.pinCodeList, "\n")` in `processQRCode`; one job is
enqueued per element (blank lines included). -/
def fileContentArr (pinCodeList : String) : List String :=
  goSplit '\n' pinCodeList

/-- The worker pool consuming the job channel, executed in the given order
(theorems quantify over all permutations of the job list).  A `log.Fatal`
in any job kills the process, so no later job runs. -/
def runJobs (folder fileExt : String) (enc : String → String → Bool)
    (st : String → Option Int) : List String → WorkTrace
  | [] => ⟨[], [], false⟩
  | line :: rest =>
    let t := work folder fileExt enc st line
    if t.fatalAbort then t
    else
      let r := runJobs folder fileExt enc st rest
      ⟨t.encodeCalls ++ r.encodeCalls, t.errLog ++ r.errLog, r.fatalAbort⟩

/-- The summary string returned by `processQRCode`:
`fmt.Sprintf("執行完成，請找資料夾 『 %s 』 並且確認檔案數量與內容", g.folder)`. -/
def summaryString (folder : String) : String :=
  "執行完成，請找資料夾 『 " ++ folder ++ " 』 並且確認檔案數量與內容"

/-- Observable outcome of `processQRCode`: the argument of `os.MkdirAll`,
the run trace, and the returned summary string. -/
structure ProcOutcome where
  mkdirArg : String
  trace : WorkTrace
  result : String
deriving DecidableEq, Repr

/-- `generator.processQRCode`: create the output folder, dispatch one job
per line of the split record list, wait for all of them, and return the
summary string (which mentions only the folder). -/
def processQRCode (g : Generator) (enc : String → String → Bool)
    (st : String → Option Int) (order : List String) : ProcOutcome :=
  ⟨g.folder, runJobs g.folder g.fileExt enc st order, summaryString g.folder⟩

/-- Observable outcome of `generatorQRCode`: the generator state after the
call, the returned `(result, err)` pair, the folders passed to
`os.MkdirAll`, and the run trace. -/
structure GenOutcome where
  state : Generator
  result : Except String String
  mkdirCalls : List String
  trace : WorkTrace
deriving Repr

/-- `generator.generatorQRCode`: validate the three arguments (empty check
first, in order), assign the fields only after all checks pass, then run
`processQRCode` and return its summary. -/
def generatorQRCode (g : Generator) (pinCodeList folder fileExt : String)
    (enc : String → String → Bool) (st : String → Option Int)
    (order : List String) : GenOutcome :=
  if pinCodeList.length = 0 then
    ⟨g, .error "flags readfile is empty", [], ⟨[], [], false⟩⟩
  else if folder.length = 0 then
    ⟨g, .error "flags folder is empty", [], ⟨[], [], false⟩⟩
  else if fileExt.length = 0 then
    ⟨g, .error "flags fileExt is empty", [], ⟨[], [], false⟩⟩
  else
    let g' : Generator := ⟨pinCodeList, folder, fileExt⟩
    let p := processQRCode g' enc st order
    ⟨g', .ok p.result, [p.mkdirArg], p.trace⟩

/-- A line produces an encode attempt iff it is non-empty and it trims and
splits into 1 or 2 tokens (the "well-formed" lines of the spec). -/
def wellFormedLine (line : String) : Bool :=
  line.length ≠ 0 &&
    ((goSplit ' ' (trimSpace line)).length = 1 ||
     (goSplit ' ' (trimSpace line)).length = 2)

/-! ## Race model for the unsynchronized error-log append

In the Go code each worker executes
`errGenQRCode.errGenQRCode = append(errGenQRCode.errGenQRCode, pingCode)`
while holding no lock (the generator mutex is held by the invoking
goroutine, never by the worker goroutines).  A Go slice append is a
read-modify-write of the slice header, so two concurrent appends race.
The model below makes the read and the write separate atomic events for two
workers appending `p1` and `p2`. -/

/-- Shared state for the two-worker append race: the shared log and each
worker's private snapshot of it. -/
structure RaceState where
  log : List String
  snap1 : Option (List String)
  snap2 : Option (List String)
deriving DecidableEq, Repr

/-- Atomic events of the two-worker append race. -/
inductive RaceEvent where
  | read1 | read2 | write1 | write2
deriving DecidableEq, Repr

/-- One step of the race model: a read takes a snapshot of the shared log;
a write stores the worker's snapshot extended with its failed path. -/
def raceStep (p1 p2 : String) (s : RaceState) : RaceEvent → RaceState
  | .read1 => { s with snap1 := some s.log }
  | .read2 => { s with snap2 := some s.log }
  | .write1 =>
    match s.snap1 with
    | some l => { s with log := l ++ [p1] }
    | none => s
  | .write2 =>
    match s.snap2 with
    | some l => { s with log := l ++ [p2] }
    | none => s

/-- Run a schedule of the two-worker append race from the empty log. -/
def raceRun (p1 p2 : String) (sched : List RaceEvent) : RaceState :=
  sched.foldl (raceStep p1 p2) ⟨[], none, none⟩

end GenQRCode

namespace GenQRCode

/-! ## Helper lemmas -/

lemma splitOnChar_ne_nil (sep : Char) (l : List Char) : splitOnChar sep l ≠ [] := by
  cases l with
  | nil => simp [splitOnChar]
  | cons c cs =>
    unfold splitOnChar
    split
    · simp
    · split <;> simp

lemma goSplit_ne_nil (sep : Char) (s : String) : goSplit sep s ≠ [] := by
  unfold goSplit
  simp [splitOnChar_ne_nil]

lemma string_length_eq_zero_iff (s : String) : s.length = 0 ↔ s = "" := by
  cases s with
  | mk data =>
    rw [String.ext_iff]
    simp [String.length]

lemma pinCodeInfo_eq_error (t : List String) (h1 : t.length ≠ 1) (h2 : t.length ≠ 2) :
    pinCodeInfo t = .error "value format is error" := by
  match t with
  | [] => rfl
  | [a] => exact absurd rfl h1
  | [a, b] => exact absurd rfl h2
  | a :: b :: c :: r => rfl

/-- The encoder invocations a line gives rise to, as a pure function of the
line and the generator's folder and extension: `work` performs exactly these
calls whatever the encoder and stat oracles answer. -/
def attemptOf (folder fileExt line : String) : List (String × String) :=
  if line.length = 0 then []
  else
    match pinCodeInfo (goSplit ' ' (trimSpace line)) with
    | .error _ => []
    | .ok (valueName, valuePinCode) =>
      [(valuePinCode, folder ++ "/" ++ valueName ++ fileExt)]

lemma work_encodeCalls (folder fileExt : String) (enc : String → String → Bool)
    (st : String → Option Int) (line : String) :
    (work folder fileExt enc st line).encodeCalls = attemptOf folder fileExt line := by
  unfold work attemptOf
  by_cases h : line.length = 0
  · simp [h]
  · simp only [h, if_false]
    cases hpc : pinCodeInfo (goSplit ' ' (trimSpace line)) with
    | error e => simp
    | ok v =>
      obtain ⟨n, p⟩ := v
      by_cases he : enc p (folder ++ "/" ++ n ++ fileExt)
      · cases hfs : fileSize st (folder ++ "/" ++ n ++ fileExt) <;> simp [he, hfs]
      · simp [he]

lemma work_fatalAbort_eq_false (folder fileExt : String) (enc : String → String → Bool)
    (st : String → Option Int) (line : String) (hst : ∀ p, (st p).isSome) :
    (work folder fileExt enc st line).fatalAbort = false := by
  unfold work
  by_cases h : line.length = 0
  · simp [h]
  · simp only [h, if_false]
    cases hpc : pinCodeInfo (goSplit ' ' (trimSpace line)) with
    | error e => simp
    | ok v =>
      obtain ⟨n, p⟩ := v
      by_cases he : enc p (folder ++ "/" ++ n ++ fileExt)
      · have hs := hst (folder ++ "/" ++ n ++ fileExt)
        cases hfs : fileSize st (folder ++ "/" ++ n ++ fileExt) with
        | fatalExit =>
          unfold fileSize at hfs
          cases hsome : st (folder ++ "/" ++ n ++ fileExt) with
          | none => rw [hsome] at hs; simp at hs
          | some k => rw [hsome] at hfs; simp at hfs
        | size k => simp [he, hfs]
      · simp [he]

lemma work_of_not_wellFormed (folder fileExt : String) (enc : String → String → Bool)
    (st : String → Option Int) (line : String) (h : wellFormedLine line = false) :
    work folder fileExt enc st line = ⟨[], [], false⟩ := by
  unfold wellFormedLine at h
  unfold work
  by_cases h0 : line.length = 0
  · simp [h0]
  · simp only [h0, if_false]
    simp only [Bool.and_eq_false_iff, Bool.or_eq_false_iff] at h
    rcases h with h | ⟨h1, h2⟩
    · simp [h0] at h
    · rw [pinCodeInfo_eq_error _ (by simpa using h1) (by simpa using h2)]

lemma attemptOf_length (folder fileExt line : String) :
    (attemptOf folder fileExt line).length = if wellFormedLine line then 1 else 0 := by
  unfold attemptOf wellFormedLine
  by_cases h0 : line.length = 0
  · simp [h0]
  · simp only [h0, if_false]
    match ht : goSplit ' ' (trimSpace line) with
    | [] => exact absurd ht (goSplit_ne_nil _ _)
    | [a] => simp [pinCodeInfo, h0]
    | [a, b] => simp [pinCodeInfo, h0]
    | a :: b :: c :: r => simp [pinCodeInfo, h0]

end GenQRCode

namespace GenQRCode

lemma runJobs_cons (folder fileExt : String) (enc : String → String → Bool)
    (st : String → Option Int) (line : String) (rest : List String) :
    runJobs folder fileExt enc st (line :: rest)
      = if (work folder fileExt enc st line).fatalAbort then
          work folder fileExt enc st line
        else
          ⟨(work folder fileExt enc st line).encodeCalls
              ++ (runJobs folder fileExt enc st rest).encodeCalls,
            (work folder fileExt enc st line).errLog
              ++ (runJobs folder fileExt enc st rest).errLog,
            (runJobs folder fileExt enc st rest).fatalAbort⟩ := rfl

lemma runJobs_encodeCalls (folder fileExt : String) (enc : String → String → Bool)
    (st : String → Option Int) (order : List String) (hst : ∀ p, (st p).isSome) :
    (runJobs folder fileExt enc st order).encodeCalls
      = order.flatMap (attemptOf folder fileExt) := by
  induction order with
  | nil => rfl
  | cons line rest ih =>
    rw [runJobs_cons, work_fatalAbort_eq_false folder fileExt enc st line hst]
    simp only [Bool.false_eq_true, if_false]
    rw [List.flatMap_cons, ← ih, ← work_encodeCalls folder fileExt enc st line]

lemma flatMap_attemptOf_length (folder fileExt : String) (order : List String) :
    (order.flatMap (attemptOf folder fileExt)).length
      = order.countP wellFormedLine := by
  induction order with
  | nil => rfl
  | cons line rest ih =>
    rw [List.flatMap_cons, List.length_append, ih, List.countP_cons, attemptOf_length]
    by_cases h : wellFormedLine line <;> simp [h, Nat.add_comm]

lemma string_ne_empty_length (s : String) (h : s ≠ "") : s.length ≠ 0 := by
  intro h0
  exact h ((string_length_eq_zero_iff s).mp h0)

lemma generatorQRCode_of_valid (g : Generator) (pinCodeList folder fileExt : String)
    (enc : String → String → Bool) (st : String → Option Int) (order : List String)
    (hp : pinCodeList ≠ "") (hf : folder ≠ "") (he : fileExt ≠ "") :
    generatorQRCode g pinCodeList folder fileExt enc st order
      = ⟨⟨pinCodeList, folder, fileExt⟩, .ok (summaryString folder), [folder],
          runJobs folder fileExt enc st order⟩ := by
  unfold generatorQRCode
  rw [if_neg (string_ne_empty_length _ hp), if_neg (string_ne_empty_length _ hf),
    if_neg (string_ne_empty_length _ he)]
  rfl

lemma runJobs_skip_inert (folder fileExt : String) (enc : String → String → Bool)
    (st : String → Option Int) (line : String)
    (hline : work folder fileExt enc st line = ⟨[], [], false⟩)
    (pre post : List String) :
    runJobs folder fileExt enc st (pre ++ line :: post)
      = runJobs folder fileExt enc st (pre ++ post) := by
  induction pre with
  | nil =>
    simp only [List.nil_append]
    rw [runJobs_cons, hline]
    simp
  | cons x xs ih =>
    simp only [List.cons_append]
    rw [runJobs_cons, runJobs_cons, ih]

end GenQRCode

namespace GenQRCode

/-! ## Claim theorems -/

/-- C1 (code_bug evidence): the File Writer/Validator does NOT contain a
post-write stat failure.  On the record "alice 123" with a succeeding
encoder and a failing stat, `fileSize` hits `log.Fatal`: the run is fatally
aborted, the destination path is not reported in the error log, and the
remaining job "bob 456" of the batch is never processed (its encode call
never happens). -/
theorem C1_stat_failure_aborts_run :
    (work "out" ".png" (fun _ _ => true) (fun _ => none) "alice 123").fatalAbort = true ∧
    (work "out" ".png" (fun _ _ => true) (fun _ => none) "alice 123").errLog = [] ∧
    (runJobs "out" ".png" (fun _ _ => true) (fun _ => none)
        ["alice 123", "bob 456"]).encodeCalls = [("123", "out/alice.png")] :=
  ⟨rfl, rfl, rfl⟩

/-- C2 (counterexample): after a successful encoder write for "alice 123",
the stat succeeds and reports size 0 (non-positive), yet the destination
path is NOT appended to the error log — the record is treated as a success,
contradicting the claim that a non-positive size is reported as failed. -/
theorem C2_zero_size_not_reported :
    (work "out" ".png" (fun _ _ => true) (fun _ => some 0) "alice 123").encodeCalls
        = [("123", "out/alice.png")] ∧
    (work "out" ".png" (fun _ _ => true) (fun _ => some 0) "alice 123").errLog = [] ∧
    (work "out" ".png" (fun _ _ => true) (fun _ => some 0) "alice 123").fatalAbort = false :=
  ⟨rfl, rfl, rfl⟩

/-- C2 (amended): after a successful encoder write the written file is
stat'ed, but no size check is performed: if the stat succeeds the
destination path is never appended to the error log, whatever size it
reports; if the stat fails the process is fatally aborted by `log.Fatal`
(so the path is not appended then either). -/
theorem C2_amended_no_size_check (folder fileExt : String)
    (enc : String → String → Bool) (st : String → Option Int)
    (line valueName valuePinCode : String)
    (hlen : ¬ line.length = 0)
    (htok : pinCodeInfo (goSplit ' ' (trimSpace line)) = .ok (valueName, valuePinCode))
    (henc : enc valuePinCode (folder ++ "/" ++ valueName ++ fileExt) = true) :
    (∀ n : Int, st (folder ++ "/" ++ valueName ++ fileExt) = some n →
        work folder fileExt enc st line
          = ⟨[(valuePinCode, folder ++ "/" ++ valueName ++ fileExt)], [], false⟩) ∧
    (st (folder ++ "/" ++ valueName ++ fileExt) = none →
        work folder fileExt enc st line
          = ⟨[(valuePinCode, folder ++ "/" ++ valueName ++ fileExt)], [], true⟩) := by
  unfold work
  rw [if_neg hlen, htok]
  constructor
  · intro n hn
    simp [henc, fileSize, hn]
  · intro hn
    simp [henc, fileSize, hn]

/-- Witness for C2 (amended) at a concrete input: encoder succeeds, the
stat reports size 0, and the record is treated as a success. -/
theorem C2_amended_witness :
    work "out" ".png" (fun _ _ => true) (fun _ => some 0) "alice 123"
      = ⟨[("123", "out/alice.png")], [], false⟩ :=
  (C2_amended_no_size_check "out" ".png" (fun _ _ => true) (fun _ => some 0)
    "alice 123" "alice" "123" (by decide) rfl rfl).1 0 rfl

/-- C3: if any of the three arguments is the empty string, `generatorQRCode`
returns an error, calls `os.MkdirAll` on nothing, performs no encoder call
and no error-log append — the error branch is taken before any record
processing begins. -/
theorem C3_empty_input_rejected (g : Generator) (pinCodeList folder fileExt : String)
    (enc : String → String → Bool) (st : String → Option Int) (order : List String)
    (h : pinCodeList = "" ∨ folder = "" ∨ fileExt = "") :
    (∃ msg, (generatorQRCode g pinCodeList folder fileExt enc st order).result
        = .error msg) ∧
    (generatorQRCode g pinCodeList folder fileExt enc st order).mkdirCalls = [] ∧
    (generatorQRCode g pinCodeList folder fileExt enc st order).trace = ⟨[], [], false⟩ := by
  unfold generatorQRCode
  by_cases h1 : pinCodeList.length = 0
  · rw [if_pos h1]
    exact ⟨⟨"flags readfile is empty", rfl⟩, rfl, rfl⟩
  · rw [if_neg h1]
    by_cases h2 : folder.length = 0
    · rw [if_pos h2]
      exact ⟨⟨"flags folder is empty", rfl⟩, rfl, rfl⟩
    · rw [if_neg h2]
      by_cases h3 : fileExt.length = 0
      · rw [if_pos h3]
        exact ⟨⟨"flags fileExt is empty", rfl⟩, rfl, rfl⟩
      · exfalso
        rcases h with h | h | h
        · exact h1 (h ▸ rfl)
        · exact h2 (h ▸ rfl)
        · exact h3 (h ▸ rfl)

/-- Witness for C3: an empty record list is rejected with no effects. -/
theorem C3_witness :
    (∃ msg, (generatorQRCode ⟨"x", "y", "z"⟩ "" "out" ".png" (fun _ _ => true)
        (fun _ => some 1) []).result = .error msg) ∧
    (generatorQRCode ⟨"x", "y", "z"⟩ "" "out" ".png" (fun _ _ => true)
        (fun _ => some 1) []).mkdirCalls = [] ∧
    (generatorQRCode ⟨"x", "y", "z"⟩ "" "out" ".png" (fun _ _ => true)
        (fun _ => some 1) []).trace = ⟨[], [], false⟩ :=
  C3_empty_input_rejected ⟨"x", "y", "z"⟩ "" "out" ".png" (fun _ _ => true)
    (fun _ => some 1) [] (Or.inl rfl)

/-- C10: when an invocation is rejected because one of the three arguments
is empty, the generator's stored fields are left exactly as they were
(they are assigned only after all three checks pass). -/
theorem C10_state_unchanged_on_reject (g : Generator)
    (pinCodeList folder fileExt : String) (enc : String → String → Bool)
    (st : String → Option Int) (order : List String)
    (h : pinCodeList = "" ∨ folder = "" ∨ fileExt = "") :
    (generatorQRCode g pinCodeList folder fileExt enc st order).state = g := by
  unfold generatorQRCode
  by_cases h1 : pinCodeList.length = 0
  · rw [if_pos h1]
  · rw [if_neg h1]
    by_cases h2 : folder.length = 0
    · rw [if_pos h2]
    · rw [if_neg h2]
      by_cases h3 : fileExt.length = 0
      · rw [if_pos h3]
      · exfalso
        rcases h with h | h | h
        · exact h1 (h ▸ rfl)
        · exact h2 (h ▸ rfl)
        · exact h3 (h ▸ rfl)

/-- Witness for C10: rejecting a call with an empty folder leaves the fields
of the previous run in place. -/
theorem C10_witness :
    (generatorQRCode ⟨"old list", "old folder", ".old"⟩ "alice 123" "" ".png"
        (fun _ _ => true) (fun _ => some 1) []).state
      = ⟨"old list", "old folder", ".old"⟩ :=
  C10_state_unchanged_on_reject ⟨"old list", "old folder", ".old"⟩ "alice 123" "" ".png"
    (fun _ _ => true) (fun _ => some 1) [] (Or.inr (Or.inl rfl))

end GenQRCode

namespace GenQRCode

lemma trimSpace_of_all_space (s : String) (h : ∀ c ∈ s.data, goIsSpace c = true) :
    trimSpace s = "" := by
  unfold trimSpace
  rw [List.dropWhile_eq_nil_iff.mpr (fun c hc => h c hc)]
  rfl

/-- C5 (counterexample): the line "a b c" splits into 3 tokens, hence is
malformed, and indeed produces no encode attempt — but it does NOT produce
"no job": `processQRCode` enqueues one job per element of the split record
list, and for the record list "a b c" that job list is exactly
`["a b c"]`, so a job is created for the malformed line. -/
theorem C5_malformed_line_still_gets_job :
    (goSplit ' ' (trimSpace "a b c")).length = 3 ∧
    fileContentArr "a b c" = ["a b c"] ∧
    work "out" ".png" (fun _ _ => true) (fun _ => some 1) "a b c" = ⟨[], [], false⟩ :=
  ⟨rfl, rfl, rfl⟩

/-- C5 (amended): every non-empty line is trimmed and split on single
spaces; 1 token `t` gives an encode attempt with name = payload = `t`,
2 tokens give name = first and payload = second; any other token count is
a malformed-record error whose worker performs no encode attempt, appends
nothing and does not abort — and removing such a line from a batch leaves
the run trace of the remaining lines unchanged.  (A job is still enqueued
for the malformed line; only the worker skips it.) -/
theorem C5_amended_tokenization (folder fileExt : String)
    (enc : String → String → Bool) (st : String → Option Int) (line : String)
    (hlen : ¬ line.length = 0) :
    (∀ t, goSplit ' ' (trimSpace line) = [t] →
        (work folder fileExt enc st line).encodeCalls
          = [(t, folder ++ "/" ++ t ++ fileExt)]) ∧
    (∀ a b, goSplit ' ' (trimSpace line) = [a, b] →
        (work folder fileExt enc st line).encodeCalls
          = [(b, folder ++ "/" ++ a ++ fileExt)]) ∧
    ((goSplit ' ' (trimSpace line)).length ≠ 1 →
      (goSplit ' ' (trimSpace line)).length ≠ 2 →
        work folder fileExt enc st line = ⟨[], [], false⟩ ∧
        ∀ pre post, runJobs folder fileExt enc st (pre ++ line :: post)
          = runJobs folder fileExt enc st (pre ++ post)) := by
  refine ⟨?_, ?_, ?_⟩
  · intro t ht
    rw [work_encodeCalls]
    unfold attemptOf
    rw [if_neg hlen, ht]
    rfl
  · intro a b hab
    rw [work_encodeCalls]
    unfold attemptOf
    rw [if_neg hlen, hab]
    rfl
  · intro h1 h2
    have hw : work folder fileExt enc st line = ⟨[], [], false⟩ := by
      unfold work
      rw [if_neg hlen, pinCodeInfo_eq_error _ h1 h2]
    exact ⟨hw, fun pre post => runJobs_skip_inert _ _ _ _ _ hw pre post⟩

/-- Witness for C5 (amended): "alice 123" splits into two tokens, giving an
encode attempt for payload "123" at "out/alice.png". -/
theorem C5_amended_witness :
    (work "out" ".png" (fun _ _ => true) (fun _ => some 1) "alice 123").encodeCalls
      = [("123", "out/alice.png")] :=
  (C5_amended_tokenization "out" ".png" (fun _ _ => true) (fun _ => some 1)
    "alice 123" (by decide)).2.1 "alice" "123" rfl

/-- C9: a line made only of whitespace is not a blank no-op: the emptiness
check sees a non-empty string, trimming then yields "", which splits into
the single empty token, so the worker attempts an encode of the empty
payload at `outputFolder ++ "/" ++ fileExtension`. -/
theorem C9_whitespace_line_attempted (folder fileExt : String)
    (enc : String → String → Bool) (st : String → Option Int) (line : String)
    (hne : line ≠ "") (hsp : ∀ c ∈ line.data, goIsSpace c = true) :
    (work folder fileExt enc st line).encodeCalls = [("", folder ++ "/" ++ fileExt)] := by
  rw [work_encodeCalls]
  unfold attemptOf
  rw [if_neg (string_ne_empty_length line hne), trimSpace_of_all_space line hsp]
  have hsplit : goSplit ' ' "" = [""] := rfl
  rw [hsplit]
  simp [pinCodeInfo, String.append_empty]

/-- Witness for C9: the single-space line attempts "out/.png" with the
empty payload. -/
theorem C9_witness :
    (work "out" ".png" (fun _ _ => true) (fun _ => some 1) " ").encodeCalls
      = [("", "out/.png")] :=
  C9_whitespace_line_attempted "out" ".png" (fun _ _ => true) (fun _ => some 1) " "
    (by decide) (by decide)

/-- C4: one job is enqueued per element of the split record list, and for
every execution order of those jobs (the workers race for them), with all
post-write stats succeeding, the number of encode attempts equals the
number of non-empty well-formed lines; blank and malformed lines
contribute nothing (no encode call, no append, no abort). -/
theorem C4_one_attempt_per_wellformed_line (g : Generator)
    (enc : String → String → Bool) (st : String → Option Int) (order : List String)
    (horder : order.Perm (fileContentArr g.pinCodeList))
    (hst : ∀ p, (st p).isSome) :
    (processQRCode g enc st order).trace.encodeCalls.length
        = (fileContentArr g.pinCodeList).countP wellFormedLine ∧
    ∀ line, wellFormedLine line = false →
      work g.folder g.fileExt enc st line = ⟨[], [], false⟩ := by
  constructor
  · show (runJobs g.folder g.fileExt enc st order).encodeCalls.length = _
    rw [runJobs_encodeCalls _ _ _ _ _ hst, flatMap_attemptOf_length]
    exact List.Perm.countP_eq _ horder
  · exact fun line h => work_of_not_wellFormed _ _ _ _ _ h

/-- Witness for C4: the record list "alice 123\nbob 456\n\ncarol" has three
well-formed lines and one blank line and yields exactly three encode
attempts. -/
theorem C4_witness :
    (processQRCode ⟨"alice 123\nbob 456\n\ncarol", "out", ".png"⟩ (fun _ _ => true)
        (fun _ => some 1)
        (fileContentArr "alice 123\nbob 456\n\ncarol")).trace.encodeCalls.length = 3 :=
  (C4_one_attempt_per_wellformed_line ⟨"alice 123\nbob 456\n\ncarol", "out", ".png"⟩
    (fun _ _ => true) (fun _ => some 1) (fileContentArr "alice 123\nbob 456\n\ncarol")
    (List.Perm.refl _) (fun _ => rfl)).1.trans (by decide)

/-- C7: for two completing runs on the same three inputs, whatever the
encoder outcomes, stat sizes and job interleavings are, the returned value
is the same, namely `ok` of the summary string, which mentions only the
output folder. -/
theorem C7_summary_independent_of_failures (g1 g2 : Generator)
    (pinCodeList folder fileExt : String)
    (enc1 enc2 : String → String → Bool) (st1 st2 : String → Option Int)
    (o1 o2 : List String)
    (hp : pinCodeList ≠ "") (hf : folder ≠ "") (he : fileExt ≠ "")
    (_hst1 : ∀ p, (st1 p).isSome) (_hst2 : ∀ p, (st2 p).isSome) :
    (generatorQRCode g1 pinCodeList folder fileExt enc1 st1 o1).result
        = (generatorQRCode g2 pinCodeList folder fileExt enc2 st2 o2).result ∧
    (generatorQRCode g1 pinCodeList folder fileExt enc1 st1 o1).result
        = .ok (summaryString folder) := by
  rw [generatorQRCode_of_valid _ _ _ _ _ _ _ hp hf he,
    generatorQRCode_of_valid _ _ _ _ _ _ _ hp hf he]
  exact ⟨rfl, rfl⟩

/-- Witness for C7: an all-success run and an all-encoder-failure run on the
same inputs return the same summary. -/
theorem C7_witness :
    (generatorQRCode ⟨"x", "y", "z"⟩ "alice 123" "out" ".png" (fun _ _ => true)
        (fun _ => some 1) (fileContentArr "alice 123")).result
      = (generatorQRCode ⟨"x", "y", "z"⟩ "alice 123" "out" ".png" (fun _ _ => false)
        (fun _ => some 1) (fileContentArr "alice 123")).result :=
  (C7_summary_independent_of_failures ⟨"x", "y", "z"⟩ ⟨"x", "y", "z"⟩ "alice 123" "out"
    ".png" (fun _ _ => true) (fun _ _ => false) (fun _ => some 1) (fun _ => some 1)
    (fileContentArr "alice 123") (fileContentArr "alice 123")
    (by decide) (by decide) (by decide) (fun _ => rfl) (fun _ => rfl)).1

/-- C8: across two completing runs on the same three inputs — whatever the
encoder outcomes, stat sizes and job interleavings — the multiset of
attempted destination paths is the same: it is a deterministic function of
(record list, output folder, file extension). -/
theorem C8_attempted_paths_deterministic (g1 g2 : Generator)
    (pinCodeList folder fileExt : String)
    (enc1 enc2 : String → String → Bool) (st1 st2 : String → Option Int)
    (o1 o2 : List String)
    (hp : pinCodeList ≠ "") (hf : folder ≠ "") (he : fileExt ≠ "")
    (h1 : o1.Perm (fileContentArr pinCodeList))
    (h2 : o2.Perm (fileContentArr pinCodeList))
    (hst1 : ∀ p, (st1 p).isSome) (hst2 : ∀ p, (st2 p).isSome) :
    ((generatorQRCode g1 pinCodeList folder fileExt enc1 st1 o1).trace.encodeCalls.map
        Prod.snd).Perm
      ((generatorQRCode g2 pinCodeList folder fileExt enc2 st2 o2).trace.encodeCalls.map
        Prod.snd) := by
  rw [generatorQRCode_of_valid _ _ _ _ _ _ _ hp hf he,
    generatorQRCode_of_valid _ _ _ _ _ _ _ hp hf he]
  show ((runJobs folder fileExt enc1 st1 o1).encodeCalls.map Prod.snd).Perm
    ((runJobs folder fileExt enc2 st2 o2).encodeCalls.map Prod.snd)
  rw [runJobs_encodeCalls _ _ _ _ _ hst1, runJobs_encodeCalls _ _ _ _ _ hst2]
  exact List.Perm.map Prod.snd
    (List.Perm.flatMap_right (attemptOf folder fileExt) (h1.trans h2.symm))

/-- Witness for C8: the same record list dispatched in list order with an
all-success encoder, and in reversed order with an all-failure encoder,
attempts the same paths up to permutation. -/
theorem C8_witness :
    ((generatorQRCode ⟨"x", "y", "z"⟩ "alice 123\nbob 456" "out" ".png"
        (fun _ _ => true) (fun _ => some 1)
        (fileContentArr "alice 123\nbob 456")).trace.encodeCalls.map Prod.snd).Perm
      ((generatorQRCode ⟨"x", "y", "z"⟩ "alice 123\nbob 456" "out" ".png"
        (fun _ _ => false) (fun _ => some 5)
        ((fileContentArr "alice 123\nbob 456").reverse)).trace.encodeCalls.map Prod.snd) :=
  C8_attempted_paths_deterministic ⟨"x", "y", "z"⟩ ⟨"x", "y", "z"⟩ "alice 123\nbob 456"
    "out" ".png" (fun _ _ => true) (fun _ _ => false) (fun _ => some 1) (fun _ => some 5)
    (fileContentArr "alice 123\nbob 456") ((fileContentArr "alice 123\nbob 456").reverse)
    (by decide) (by decide) (by decide) (List.Perm.refl _) (List.reverse_perm _)
    (fun _ => rfl) (fun _ => rfl)

/-- C6 (code_bug evidence): the worker's error-log append
`errGenQRCode.errGenQRCode = append(...)` holds no lock, so it is a
read-modify-write racing with the other workers.  In the interleaving where
both workers read the slice before either writes (schedule
read1, read2, write1, write2), the first failed path is lost: the final log
is `["out/b.png"]`, which is not a permutation of the two failed paths. -/
theorem C6_unsynchronized_append_loses_path :
    (raceRun "out/a.png" "out/b.png"
        [.read1, .read2, .write1, .write2]).log = ["out/b.png"] ∧
    ¬ (raceRun "out/a.png" "out/b.png"
        [.read1, .read2, .write1, .write2]).log.Perm ["out/a.png", "out/b.png"] :=
  ⟨rfl, fun h => absurd h.length_eq (by decide)⟩

end GenQRCode
